import Mathlib

/-!
# Verification of the AirHockey core (src/js/game.js, src/js/network.js)

Shallow embedding of the host-authoritative air-hockey game core.
Numbers are modelled as elements of a linear ordered field: the
square-root-free parts of the code are embedded generically (so they can be
evaluated at `ℚ`), while the physics steps that use `Math.sqrt` and
`Math.pow` with a real exponent are embedded at `ℝ` with `Real.sqrt` and
real `rpow`.  Scores are naturals.  Side effects (Audio.play, UI calls,
Network.send attempts) are modelled as an explicit event list returned next
to the updated state.
-/

namespace AirHockey

/-- The two sides of the table, `'player'` and `'opponent'` in the source. -/
inductive Side where
  | player
  | opponent
deriving DecidableEq, Repr

/-- Score record `{player, opponent}`; JS numbers used as counters. -/
structure Score where
  player : ℕ
  opponent : ℕ
deriving DecidableEq, Repr

/-- `Game.winningScore` (game.js line 24). -/
def winningScore : ℕ := 11

/-- `Game.maxTrailLength` (game.js line 35). -/
def maxTrailLength : ℕ := 15

/-- A moving body `{x, y, vx, vy, radius}` (puck or paddle). -/
structure Body (α : Type) where
  x : α
  y : α
  vx : α
  vy : α
  radius : α
deriving DecidableEq, Repr

/-- The puck payload of a `gameState` wire message: `{x, y, vx, vy}`. -/
structure PuckMsg (α : Type) where
  x : α
  y : α
  vx : α
  vy : α
deriving DecidableEq, Repr

/-- The `state` payload of a `gameState` wire message. -/
structure StateMsg (α : Type) where
  puck : PuckMsg α
  score : Score
deriving DecidableEq, Repr

/-- Side effects of a game-core operation: sounds played via `Audio.play`
and outbound network send attempts.  `broadcastState` records a call to
`Network.sendGameState` (the attempt; throttling is modelled separately in
the network layer). -/
inductive Ev (α : Type) where
  | wall
  | hit
  | goalSnd
  | winSnd
  | loseSnd
  | broadcastState (puck : PuckMsg α) (score : Score)
deriving DecidableEq, Repr

/-- The mutable fields of the `Game` object that the core logic reads and
writes.  `pendingReset` models the `setTimeout` scheduled by `goalScored`
(`some towardPlayer` when a reset is pending); `netConnected` mirrors
`Network.isConnected` as observed from game.js. -/
structure GameState (α : Type) where
  width : α
  height : α
  wallThickness : α
  goalWidth : α
  puck : Body α
  playerPaddle : Body α
  opponentPaddle : Body α
  /-- `lastX`/`lastY` fields lazily added to `opponentPaddle` by
  `updateOpponentPaddle`; `none` models the JS `undefined`. -/
  oppLastX : Option α
  oppLastY : Option α
  score : Score
  isRunning : Bool
  isHost : Bool
  netConnected : Bool
  trail : List (α × α)
  pendingReset : Option Bool
deriving Repr

variable {α : Type} [LinearOrderedField α]

/-- Trail update at the top of `updatePhysics` (and in `updateFromHost`):
`puckTrail.unshift({x, y}); if (puckTrail.length > maxTrailLength) pop()`. -/
def pushTrail (trail : List (α × α)) (x y : α) : List (α × α) :=
  let t := (x, y) :: trail
  if t.length > maxTrailLength then t.dropLast else t

/-- `Game.gameOver(playerWon)` (game.js lines 479-487): stops the loop and
plays the win or lose sound.  (Cancelling the animation frame is subsumed
by `isRunning := false`: `gameLoop` returns immediately when not running.) -/
def gameOver (st : GameState α) (playerWon : Bool) :
    GameState α × List (Ev α) :=
  ({ st with isRunning := false },
   [if playerWon then Ev.winSnd else Ev.loseSnd])

/-- `this.score[scorer]++` in `goalScored`. -/
def bumpScore (s : Score) (scorer : Side) : Score :=
  match scorer with
  | Side.player => { s with player := s.player + 1 }
  | Side.opponent => { s with opponent := s.opponent + 1 }

/-- Projection `score[scorer]`. -/
def scoreOf (s : Score) (scorer : Side) : ℕ :=
  match scorer with
  | Side.player => s.player
  | Side.opponent => s.opponent

/-- `Game.goalScored(scorer)` (game.js lines 353-372): increment the
scorer's score, play the goal sound, then either end the match (when the
scorer reached `winningScore`) or schedule the deferred puck reset
(`setTimeout(..., 1500)`), recorded as `pendingReset`. -/
def goalScored (st : GameState α) (scorer : Side) :
    GameState α × List (Ev α) :=
  let score' := bumpScore st.score scorer
  let st1 := { st with score := score' }
  if winningScore ≤ scoreOf score' scorer then
    let r := gameOver st1 (decide (scorer = Side.player))
    (r.1, Ev.goalSnd :: r.2)
  else
    ({ st1 with pendingReset := some (decide (scorer = Side.opponent)) },
     [Ev.goalSnd])

/-- The mirroring transform applied by the guest to an incoming
authoritative `gameState` payload (game.js lines 439-442 and 454-455):
position maps to `(width - x, height - y)`, velocity is negated, and the
score swaps `player` and `opponent`. -/
def mirrorStateMsg (width height : α) (m : StateMsg α) : StateMsg α :=
  { puck := { x := width - m.puck.x
              y := height - m.puck.y
              vx := -m.puck.vx
              vy := -m.puck.vy }
    score := { player := m.score.opponent, opponent := m.score.player } }

/-- `Game.updateFromHost(state)` (game.js lines 435-474): guest-side
application of an authoritative state message.  Mirrors the puck, pushes
the trail, mirrors the score, plays a goal sound when a mirrored score
increased, and ends the match when a mirrored score reached
`winningScore`. -/
def updateFromHost (st : GameState α) (msg : StateMsg α) :
    GameState α × List (Ev α) :=
  if st.isHost then (st, []) else
  let m := mirrorStateMsg st.width st.height msg
  let puck' := { st.puck with x := m.puck.x, y := m.puck.y,
                              vx := m.puck.vx, vy := m.puck.vy }
  let st1 := { st with puck := puck',
                       trail := pushTrail st.trail m.puck.x m.puck.y }
  let prevPlayer := st.score.player
  let prevOpponent := st.score.opponent
  let st2 := { st1 with score := m.score }
  let goalEvs : List (Ev α) :=
    if prevPlayer < m.score.player then [Ev.goalSnd]
    else if prevOpponent < m.score.opponent then [Ev.goalSnd]
    else []
  if winningScore ≤ m.score.player then
    let r := gameOver st2 true
    (r.1, goalEvs ++ r.2)
  else if winningScore ≤ m.score.opponent then
    let r := gameOver st2 false
    (r.1, goalEvs ++ r.2)
  else
    (st2, goalEvs)

/-- JS truthiness fallback `(lastX || x)`: `lastX` is used only when it is
defined and nonzero (`0` is falsy in JS). -/
def orFallback (last : Option α) (x : α) : α :=
  match last with
  | none => x
  | some l => if l = 0 then x else l

/-- `Game.updateOpponentPaddle(x, y)` (game.js lines 418-430): mirrors the
received position into the opponent paddle with no clamping, and derives a
paddle velocity from the previous mirrored position. -/
def updateOpponentPaddle (st : GameState α) (x y : α) : GameState α :=
  let nx := st.width - x
  let ny := st.height - y
  let vx := (nx - orFallback st.oppLastX nx) * (3/10)
  let vy := (ny - orFallback st.oppLastY ny) * (3/10)
  { st with
    opponentPaddle := { st.opponentPaddle with x := nx, y := ny,
                                               vx := vx, vy := vy }
    oppLastX := some nx
    oppLastY := some ny }

/-- `Network.stateSendInterval` (network.js line 20), milliseconds. -/
def stateSendInterval : ℤ := 33

/-- One call to `Network.sendGameState` at wall-clock time `now`
(network.js lines 250-259): given the stored `lastStateSend`, returns the
updated `lastStateSend` and whether the message was actually sent. -/
def sendGameStateStep (lastStateSend now : ℤ) : ℤ × Bool :=
  if stateSendInterval ≤ now - lastStateSend then (now, true)
  else (lastStateSend, false)

/-- The wall-clock times at which `sendGameState`, called once at each time
in `attempts` (in order), actually emits a message, starting from stored
`lastStateSend = last`.  Attempts made too early are dropped, never
queued. -/
def sendTimes (last : ℤ) : List ℤ → List ℤ
  | [] => []
  | t :: ts =>
      if stateSendInterval ≤ t - last then t :: sendTimes t ts
      else sendTimes last ts

/-- Errors surfaced by the connection phase. -/
inductive NetErr where
  | timeout
  | peerError
deriving DecidableEq, Repr

/-- The asynchronous events that can reach the `createGame` promise
executor (network.js lines 32-79): the host's own peer registration opening
(`peer.on('open')`), a guest data connection becoming fully open
(`conn.on('open')` inside `peer.on('connection')`, which runs
`setupConnection`), the 60-second timeout firing, and a peer error (with
its `unavailable-id` discriminator). -/
inductive HostEv where
  | peerOpen
  | connOpen
  | timeout60
  | peerErr (unavailableId : Bool)
deriving DecidableEq, Repr

/-- The observable state of one `createGame()` call: the promise
settlement (`Sum.inl code` = resolved, `Sum.inr e` = rejected; a promise
settles at most once, later settle attempts are no-ops), the
`Network.isConnected` flag, the current `roomCode`, and the stream of codes
`generateRoomCode` would produce on retries. -/
structure HostCreate where
  promise : Option (Sum ℕ NetErr)
  isConnected : Bool
  roomCode : ℕ
  pendingCodes : List ℕ
deriving DecidableEq, Repr

/-- Settle the promise: a no-op when it is already settled. -/
def settle (s : HostCreate) (v : Sum ℕ NetErr) : HostCreate :=
  match s.promise with
  | some _ => s
  | none => { s with promise := some v }

/-- Process one asynchronous event in `createGame` (network.js lines
44-77).  `peer.on('open')` resolves with the room code; a fully opened
guest connection sets `isConnected`; the 60s timer rejects with a timeout
only when `isConnected` is still false; an `unavailable-id` error destroys
the peer and retries with a fresh room code against the same outer promise,
any other peer error rejects. -/
def createGameStep (s : HostCreate) (e : HostEv) : HostCreate :=
  match e with
  | HostEv.peerOpen => settle s (Sum.inl s.roomCode)
  | HostEv.connOpen => { s with isConnected := true }
  | HostEv.timeout60 =>
      if s.isConnected then s else settle s (Sum.inr NetErr.timeout)
  | HostEv.peerErr u =>
      if u then
        { s with roomCode := s.pendingCodes.headD s.roomCode,
                 pendingCodes := s.pendingCodes.tail }
      else settle s (Sum.inr NetErr.peerError)

/-- Run a `createGame()` call against a sequence of asynchronous events.
`code` is the first generated room code, `codes` the codes later retries
would generate. -/
def createGameRun (code : ℕ) (codes : List ℕ) (evs : List HostEv) :
    HostCreate :=
  evs.foldl createGameStep
    { promise := none, isConnected := false,
      roomCode := code, pendingCodes := codes }

/-- Wire messages of the sync protocol (network.js `handleMessage`). -/
inductive Msg (α : Type) where
  | ready
  | start
  | paddle (x y : α)
  | gameState (state : StateMsg α)
  | playAgain
deriving DecidableEq, Repr

/-- The effect of `Network.handleMessage` (network.js lines 170-221) on the
game state: a `paddle` message is forwarded to
`Game.updateOpponentPaddle`, a `gameState` message to `Game.updateFromHost`
when this peer is not the host.  (`ready`/`start`/`playAgain` drive the UI
start flow and do not touch the fields modelled here; `Network.isHost` and
`Game.isHost` are set consistently by the UI layer, so the host check uses
`st.isHost`.) -/
def handleGameMsg (st : GameState α) (m : Msg α) :
    GameState α × List (Ev α) :=
  match m with
  | Msg.paddle x y => (updateOpponentPaddle st x y, [])
  | Msg.gameState s => if st.isHost then (st, []) else updateFromHost st s
  | _ => (st, [])

/-- `Game.friction` (game.js line 27). -/
def frictionC : ℝ := 0.995

/-- `Game.maxPuckSpeed` (game.js line 28). -/
def maxPuckSpeed : ℝ := 25

/-- `const wallLeft = this.wallThickness + puck.radius` (game.js 247). -/
def wallLeftOf (st : GameState α) : α := st.wallThickness + st.puck.radius

/-- `const wallRight = this.width - this.wallThickness - puck.radius`. -/
def wallRightOf (st : GameState α) : α :=
  st.width - st.wallThickness - st.puck.radius

/-- `const wallTop = this.wallThickness + puck.radius` (game.js 249). -/
def wallTopOf (st : GameState α) : α := st.wallThickness + st.puck.radius

/-- `const wallBottom = this.height - this.wallThickness - puck.radius`. -/
def wallBottomOf (st : GameState α) : α :=
  st.height - st.wallThickness - st.puck.radius

/-- `const goalLeft = (this.width - this.goalWidth) / 2` (game.js 253). -/
def goalLeftOf (st : GameState α) : α := (st.width - st.goalWidth) / 2

/-- `const goalRight = (this.width + this.goalWidth) / 2` (game.js 254). -/
def goalRightOf (st : GameState α) : α := (st.width + st.goalWidth) / 2

/-- Position integration, `puck.x += puck.vx * dt; puck.y += puck.vy * dt`
(game.js 232-233). -/
def integrate (p : Body α) (dt : α) : Body α :=
  { p with x := p.x + p.vx * dt, y := p.y + p.vy * dt }

/-- Friction, `puck.vx *= Math.pow(this.friction, dt)` and likewise for
`vy` (game.js 236-237); the exponent is the real-valued delta time. -/
noncomputable def applyFriction (p : Body ℝ) (dt : ℝ) : Body ℝ :=
  { p with vx := p.vx * frictionC ^ dt, vy := p.vy * frictionC ^ dt }

/-- `const speed = Math.sqrt(puck.vx * puck.vx + puck.vy * puck.vy)`. -/
noncomputable def speedOf (p : Body ℝ) : ℝ :=
  Real.sqrt (p.vx * p.vx + p.vy * p.vy)

/-- Speed clamp (game.js 240-244): rescale the velocity to exactly
`maxPuckSpeed` when the speed exceeds it. -/
noncomputable def clampSpeed (p : Body ℝ) : Body ℝ :=
  if maxPuckSpeed < speedOf p then
    { p with vx := p.vx / speedOf p * maxPuckSpeed,
             vy := p.vy / speedOf p * maxPuckSpeed }
  else p

/-- Left/right wall collisions (game.js 257-265): clamp the position to
the wall and invert the horizontal velocity scaled by `0.9`. -/
def sideWalls (st : GameState α) (p : Body α) : Body α × List (Ev α) :=
  if p.x < wallLeftOf st then
    ({ p with x := wallLeftOf st, vx := -p.vx * (9/10) }, [Ev.wall])
  else if wallRightOf st < p.x then
    ({ p with x := wallRightOf st, vx := -p.vx * (9/10) }, [Ev.wall])
  else (p, [])

/-- Outcome of the end-wall phase of a tick: either an early return with a
goal for `scorer` (carrying the puck as it was at the return and the wall
events already played this phase), or the continuing puck and events. -/
inductive EndResult (α : Type) where
  | goal (scorer : Side) (p : Body α) (evs : List (Ev α))
  | cont (p : Body α) (evs : List (Ev α))
deriving DecidableEq, Repr

/-- Bottom-wall check (game.js 281-291): a boundary crossing with the
horizontal position strictly inside the goal mouth is a goal for the
opponent; otherwise a normal lossy bounce. -/
def bottomWall (st : GameState α) (p : Body α) (evs : List (Ev α)) :
    EndResult α :=
  if wallBottomOf st < p.y then
    if goalLeftOf st < p.x ∧ p.x < goalRightOf st then
      EndResult.goal Side.opponent p evs
    else
      EndResult.cont { p with y := wallBottomOf st, vy := -p.vy * (9/10) }
        (evs ++ [Ev.wall])
  else EndResult.cont p evs

/-- Top-wall check then bottom-wall check (game.js 268-291): a top
crossing with the horizontal position strictly inside the goal mouth is a
goal for the player (early return); otherwise the puck bounces and the
bottom wall is checked on the bounced puck. -/
def endWalls (st : GameState α) (p : Body α) : EndResult α :=
  if p.y < wallTopOf st then
    if goalLeftOf st < p.x ∧ p.x < goalRightOf st then
      EndResult.goal Side.player p []
    else
      bottomWall st { p with y := wallTopOf st, vy := -p.vy * (9/10) }
        [Ev.wall]
  else bottomWall st p []

/-- The center distance
`Math.sqrt(dx * dx + dy * dy)` computed by `checkPaddleCollision`
(game.js 310-312). -/
noncomputable def distOf (puck paddle : Body ℝ) : ℝ :=
  Real.sqrt ((puck.x - paddle.x) * (puck.x - paddle.x)
    + (puck.y - paddle.y) * (puck.y - paddle.y))

/-- The relative velocity along the collision normal computed by
`checkPaddleCollision` (game.js 326-330); the positional correction does
not change velocities, so it can be read off the incoming bodies. -/
noncomputable def relNormalVel (puck paddle : Body ℝ) : ℝ :=
  (puck.vx - paddle.vx) * ((puck.x - paddle.x) / distOf puck paddle)
  + (puck.vy - paddle.vy) * ((puck.y - paddle.y) / distOf puck paddle)

/-- `Game.checkPaddleCollision(paddle)` (game.js 309-348): when the center
distance is strictly between `0` and the sum of the radii, push the puck
out along the unit collision normal by the overlap, and, only when the
relative velocity along the normal is negative, apply the restitution
impulse and add half the paddle velocity. -/
noncomputable def checkPaddleCollision (puck paddle : Body ℝ) :
    Body ℝ × List (Ev ℝ) :=
  let dist := distOf puck paddle
  let minDist := puck.radius + paddle.radius
  if dist < minDist ∧ 0 < dist then
    let nx := (puck.x - paddle.x) / dist
    let ny := (puck.y - paddle.y) / dist
    let overlap := minDist - dist
    let p1 := { puck with x := puck.x + nx * overlap,
                          y := puck.y + ny * overlap }
    let relVelNormal := (p1.vx - paddle.vx) * nx + (p1.vy - paddle.vy) * ny
    if relVelNormal < 0 then
      let restitution : ℝ := 1.1
      ({ p1 with
          vx := p1.vx - (1 + restitution) * relVelNormal * nx
                  + paddle.vx * 0.5,
          vy := p1.vy - (1 + restitution) * relVelNormal * ny
                  + paddle.vy * 0.5 }, [Ev.hit])
    else (p1, [])
  else (puck, [])

/-- Steps 1-5 of a physics tick before the end-wall phase: trail is
handled by the caller; integrate, apply friction, clamp speed, side
walls. -/
noncomputable def prePaddle (st : GameState ℝ) (dt : ℝ) :
    Body ℝ × List (Ev ℝ) :=
  sideWalls st (clampSpeed (applyFriction (integrate st.puck dt) dt))

/-- `Game.updatePhysics(dt)` (game.js 222-304): a full host tick.  On a
goal, the function returns early through `goalScored` — no paddle
collision is processed and no broadcast is attempted; otherwise both
paddles are checked and, when connected, the new puck state and score are
handed to `Network.sendGameState`. -/
noncomputable def updatePhysics (st : GameState ℝ) (dt : ℝ) :
    GameState ℝ × List (Ev ℝ) :=
  let st0 := { st with trail := pushTrail st.trail st.puck.x st.puck.y }
  let r1 := prePaddle st0 dt
  match endWalls st0 r1.1 with
  | EndResult.goal scorer p4 gevs =>
      let r := goalScored { st0 with puck := p4 } scorer
      (r.1, r1.2 ++ gevs ++ r.2)
  | EndResult.cont p4 e2 =>
      let r5 := checkPaddleCollision p4 st0.playerPaddle
      let r6 := checkPaddleCollision r5.1 st0.opponentPaddle
      let st1 := { st0 with puck := r6.1 }
      let evs := r1.2 ++ e2 ++ r5.2 ++ r6.2
      if st0.netConnected then
        (st1, evs ++ [Ev.broadcastState ⟨r6.1.x, r6.1.y, r6.1.vx, r6.1.vy⟩
                        st0.score])
      else (st1, evs)

/-- `Game.resetPuck(towardPlayer)` (game.js 377-395) with the randomly
drawn initial velocity supplied as `(vx, vy)` (the source computes it from
`Math.random()` and trigonometry).  Recenters the puck, clears the trail
and broadcasts the fresh state when connected. -/
noncomputable def resetPuck (st : GameState ℝ) (vx vy : ℝ) :
    GameState ℝ × List (Ev ℝ) :=
  let puck' := { st.puck with x := st.width / 2, y := st.height / 2,
                              vx := vx, vy := vy }
  let st1 := { st with puck := puck', trail := [] }
  if st.netConnected then
    (st1, [Ev.broadcastState ⟨puck'.x, puck'.y, vx, vy⟩ st.score])
  else (st1, [])

/-- The deferred reset scheduled by `goalScored` (game.js 367-371): when
the 1500ms timer fires, the puck is reset only if the game is still
running; after `gameOver` the callback does nothing. -/
noncomputable def resetTimeoutFire (st : GameState ℝ) (vx vy : ℝ) :
    GameState ℝ × List (Ev ℝ) :=
  let st0 := { st with pendingReset := none }
  if st.isRunning then resetPuck st0 vx vy else (st0, [])

/-- One invocation of `Game.gameLoop` (game.js 203-217) with the clamped
delta time `dt` supplied: it returns immediately when the loop has been
stopped, and only the host runs physics (rendering does not touch the
modelled state). -/
noncomputable def gameLoopStep (st : GameState ℝ) (dt : ℝ) :
    GameState ℝ × List (Ev ℝ) :=
  if st.isRunning then
    if st.isHost then updatePhysics st dt else (st, [])
  else (st, [])

/-- A goal event on the host while a match is in progress: `goalScored` is
only ever invoked from `updatePhysics`, which runs only while `isRunning`
(the loop stops once `gameOver` clears the flag). -/
def hostGoalStep (st : GameState α) (scorer : Side) : GameState α :=
  if st.isRunning then (goalScored st scorer).1 else st

/-- A host-side match trace: the match state after a sequence of goals. -/
def hostRun (st : GameState α) (tr : List Side) : GameState α :=
  tr.foldl hostGoalStep st

/-- The sample arena over `ℝ`, with the puck one unit above the top wall
boundary inside the goal mouth and at rest (so a tick scores a goal). -/
noncomputable def sampleR : GameState ℝ :=
  { width := 100, height := 100, wallThickness := 2, goalWidth := 40
    puck := ⟨50, 1, 0, 0, 5⟩
    playerPaddle := ⟨50, 80, 0, 0, 8⟩
    opponentPaddle := ⟨50, 20, 0, 0, 8⟩
    oppLastX := none, oppLastY := none
    score := ⟨0, 0⟩, isRunning := true, isHost := true, netConnected := true
    trail := [], pendingReset := none }

/-- The wall-bounce scenario arena over `ℝ`: the puck starts at
`(wallLeft - 1, height/2) = (6, 50)` with velocity `(-3, 0)`
(`wallLeft = wallThickness + puckRadius = 7`), paddles far away. -/
noncomputable def sampleW : GameState ℝ :=
  { width := 100, height := 100, wallThickness := 2, goalWidth := 40
    puck := ⟨6, 50, -3, 0, 5⟩
    playerPaddle := ⟨50, 80, 0, 0, 8⟩
    opponentPaddle := ⟨50, 20, 0, 0, 8⟩
    oppLastX := none, oppLastY := none
    score := ⟨0, 0⟩, isRunning := true, isHost := true
    netConnected := false
    trail := [], pendingReset := none }

/-- A concrete arena used by witnesses: 100×100 display units, wall
thickness 2, goal width 40 (goal mouth from 30 to 70), puck radius 5,
paddle radius 8. -/
def sampleQ : GameState ℚ :=
  { width := 100, height := 100, wallThickness := 2, goalWidth := 40
    puck := ⟨50, 50, 0, 0, 5⟩
    playerPaddle := ⟨50, 80, 0, 0, 8⟩
    opponentPaddle := ⟨50, 20, 0, 0, 8⟩
    oppLastX := none, oppLastY := none
    score := ⟨0, 0⟩, isRunning := true, isHost := true, netConnected := true
    trail := [], pendingReset := none }

/-! ## Helper lemmas -/

/-- A settled promise can never change again, whatever events follow. -/
theorem promise_settled_stays (v : Sum ℕ NetErr) :
    ∀ (evs : List HostEv) (s : HostCreate), s.promise = some v →
      (evs.foldl createGameStep s).promise = some v := by
  intro evs
  induction evs with
  | nil => intro s h; exact h
  | cons e evs ih =>
      intro s h
      refine ih _ ?_
      cases e with
      | peerOpen => simp [createGameStep, settle, h]
      | connOpen => simpa [createGameStep] using h
      | timeout60 =>
          by_cases hc : s.isConnected <;>
            simp [createGameStep, settle, hc, h]
      | peerErr u =>
          by_cases hu : u <;>
            simp [createGameStep, settle, hu, h]

/-- Emitted broadcast times are a sublist of the attempt times: a dropped
attempt is never queued or replayed. -/
theorem sendTimes_sublist : ∀ (ts : List ℤ) (last : ℤ),
    (sendTimes last ts).Sublist ts := by
  intro ts
  induction ts with
  | nil => intro last; simp [sendTimes]
  | cons t ts ih =>
      intro last
      by_cases h : stateSendInterval ≤ t - last
      · simpa [sendTimes, h] using List.Sublist.cons₂ t (ih t)
      · simpa [sendTimes, h] using List.Sublist.cons t (ih last)

/-- Consecutive emitted broadcasts (anchored at the stored
`lastStateSend`) are at least `stateSendInterval` apart. -/
theorem sendTimes_chain : ∀ (ts : List ℤ) (last : ℤ),
    List.Chain (fun a b => a + stateSendInterval ≤ b) last
      (sendTimes last ts) := by
  intro ts
  induction ts with
  | nil => intro last; simp [sendTimes]
  | cons t ts ih =>
      intro last
      by_cases h : stateSendInterval ≤ t - last
      · simpa [sendTimes, h] using List.Chain.cons (by omega) (ih t)
      · simpa [sendTimes, h] using ih last

/-- A chain of values each at least `d` above the previous, anchored at
`x` and bounded above by `hi`, forces `x + d * length ≤ hi`. -/
theorem chain_anchored_bound (d hi : ℤ) :
    ∀ (l : List ℤ) (x : ℤ),
      List.Chain (fun a b => a + d ≤ b) x l →
      (∀ y ∈ l, y ≤ hi) → l ≠ [] → x + d * l.length ≤ hi := by
  intro l
  induction l with
  | nil => intro x _ _ h; exact absurd rfl h
  | cons t rest ih =>
      intro x hch hhi _
      cases hch with
      | cons hxt hrest =>
          by_cases hne : rest = []
          · subst hne
            have ht : t ≤ hi := hhi t (List.mem_cons_self t [])
            simpa using by omega
          · have hrec := ih t hrest
              (fun y hy => hhi y (List.mem_cons_of_mem t hy)) hne
            have : (((t :: rest).length : ℤ)) = (rest.length : ℤ) + 1 := by
              push_cast [List.length_cons]; ring
            rw [this]
            nlinarith [hrec, hxt]

/-- `goalScored` leaves the incremented score in place in both branches
(`gameOver` does not touch the score). -/
theorem goalScored_score {α : Type} (st : GameState α) (scorer : Side) :
    ((goalScored st scorer).1).score = bumpScore st.score scorer := by
  by_cases h : winningScore ≤ scoreOf (bumpScore st.score scorer) scorer <;>
    simp [goalScored, gameOver, h]

/-- When the incremented score reaches the winning threshold, `goalScored`
runs `gameOver`, stopping the loop. -/
theorem goalScored_isRunning_of_win {α : Type} (st : GameState α)
    (scorer : Side)
    (h : winningScore ≤ scoreOf (bumpScore st.score scorer) scorer) :
    ((goalScored st scorer).1).isRunning = false := by
  simp [goalScored, gameOver, h]

/-- Below the winning threshold, `goalScored` leaves `isRunning` alone. -/
theorem goalScored_isRunning_of_notwin {α : Type} (st : GameState α)
    (scorer : Side)
    (h : ¬ winningScore ≤ scoreOf (bumpScore st.score scorer) scorer) :
    ((goalScored st scorer).1).isRunning = st.isRunning := by
  simp [goalScored, gameOver, h]

/-- Incrementing the scorer's side increments exactly its own count. -/
theorem scoreOf_bump (s : Score) (scorer : Side) :
    scoreOf (bumpScore s scorer) scorer = scoreOf s scorer + 1 := by
  cases scorer <;> rfl

/-- One gated goal step never decreases either score. -/
theorem hostGoalStep_mono {α : Type} (st : GameState α) (s : Side) :
    st.score.player ≤ (hostGoalStep st s).score.player
    ∧ st.score.opponent ≤ (hostGoalStep st s).score.opponent := by
  unfold hostGoalStep
  by_cases hr : st.isRunning = true
  · simp only [hr, if_true, goalScored_score]
    cases s <;> simp [bumpScore]
  · have hrf : st.isRunning = false := by simpa using hr
    simp [hrf]

/-- The match invariant — both scores at most `winningScore`, and the loop
stopped exactly when one of them equals it — is preserved by a gated goal
step. -/
theorem hostGoalStep_inv {α : Type} (st : GameState α) (s : Side)
    (h1 : st.score.player ≤ winningScore ∧ st.score.opponent ≤ winningScore)
    (h2 : st.isRunning = false ↔
      (st.score.player = winningScore ∨ st.score.opponent = winningScore)) :
    ((hostGoalStep st s).score.player ≤ winningScore
      ∧ (hostGoalStep st s).score.opponent ≤ winningScore)
    ∧ ((hostGoalStep st s).isRunning = false ↔
        ((hostGoalStep st s).score.player = winningScore
          ∨ (hostGoalStep st s).score.opponent = winningScore)) := by
  unfold hostGoalStep
  by_cases hr : st.isRunning = true
  · have hlt : st.score.player < winningScore
        ∧ st.score.opponent < winningScore := by
      rw [hr] at h2
      simp only [Bool.true_eq_false, false_iff] at h2
      push_neg at h2
      omega
    by_cases hw : winningScore ≤ scoreOf (bumpScore st.score s) s
    · simp only [hr, if_true, goalScored_score,
        goalScored_isRunning_of_win st s hw]
      cases s <;>
        simp only [bumpScore, scoreOf, winningScore] at hw hlt ⊢ <;>
        simp <;> omega
    · simp only [hr, if_true, goalScored_score,
        goalScored_isRunning_of_notwin st s hw, hr]
      cases s <;>
        simp only [bumpScore, scoreOf, winningScore] at hw hlt ⊢ <;>
        simp <;> omega
  · have hrf : st.isRunning = false := by simpa using hr
    simp only [hrf, Bool.false_eq_true, if_false]
    exact ⟨h1, by simpa using h2.mp hrf⟩

/-- The match invariant holds along every host goal trace. -/
theorem hostRun_inv {α : Type} : ∀ (tr : List Side) (st : GameState α),
    (st.score.player ≤ winningScore ∧ st.score.opponent ≤ winningScore) →
    (st.isRunning = false ↔
      (st.score.player = winningScore ∨ st.score.opponent = winningScore)) →
    ((hostRun st tr).score.player ≤ winningScore
      ∧ (hostRun st tr).score.opponent ≤ winningScore)
    ∧ ((hostRun st tr).isRunning = false ↔
        ((hostRun st tr).score.player = winningScore
          ∨ (hostRun st tr).score.opponent = winningScore)) := by
  intro tr
  induction tr with
  | nil => intro st h1 h2; exact ⟨h1, h2⟩
  | cons s tr ih =>
      intro st h1 h2
      have h := hostGoalStep_inv st s h1 h2
      exact ih (hostGoalStep st s) h.1 h.2

/-- Scores never decrease along a host goal trace. -/
theorem hostRun_mono {α : Type} : ∀ (tr : List Side) (st : GameState α),
    st.score.player ≤ (hostRun st tr).score.player
    ∧ st.score.opponent ≤ (hostRun st tr).score.opponent := by
  intro tr
  induction tr with
  | nil => intro st; exact ⟨le_refl _, le_refl _⟩
  | cons s tr ih =>
      intro st
      have h1 := hostGoalStep_mono st s
      have h2 := ih (hostGoalStep st s)
      exact ⟨le_trans h1.1 h2.1, le_trans h1.2 h2.2⟩

/-- Traces compose by concatenation. -/
theorem hostRun_append {α : Type} (st : GameState α) (tr tr' : List Side) :
    hostRun st (tr ++ tr') = hostRun (hostRun st tr) tr' :=
  List.foldl_append hostGoalStep st tr tr'

/-- On the guest, `updateFromHost` overwrites the score with the mirrored
incoming score. -/
theorem updateFromHost_score {α : Type} [LinearOrderedField α]
    (st : GameState α) (msg : StateMsg α) (hg : st.isHost = false) :
    ((updateFromHost st msg).1).score
      = ⟨msg.score.opponent, msg.score.player⟩ := by
  simp only [updateFromHost, hg, Bool.false_eq_true, if_false,
    mirrorStateMsg, gameOver]
  split_ifs <;> rfl

/-- On the guest, `updateFromHost` stops the loop exactly when one of the
mirrored incoming scores has reached the winning threshold. -/
theorem updateFromHost_isRunning {α : Type} [LinearOrderedField α]
    (st : GameState α) (msg : StateMsg α) (hg : st.isHost = false) :
    ((updateFromHost st msg).1).isRunning
      = (if winningScore ≤ msg.score.opponent
            ∨ winningScore ≤ msg.score.player
         then false else st.isRunning) := by
  simp only [updateFromHost, hg, Bool.false_eq_true, if_false,
    mirrorStateMsg, gameOver]
  by_cases h1 : winningScore ≤ msg.score.opponent <;>
    by_cases h2 : winningScore ≤ msg.score.player <;>
    simp [h1, h2]

/-- `Real.sqrt` at a perfect square. -/
theorem sqrt_eq_of_sq (a b : ℝ) (hb : 0 ≤ b) (h : a = b * b) :
    Real.sqrt a = b := by
  rw [h, Real.sqrt_mul_self hb]

/-- Upper-bound a square root by squaring the bound. -/
theorem sqrt_le_of_sq (a b : ℝ) (hb : 0 ≤ b) (h : a ≤ b * b) :
    Real.sqrt a ≤ b := by
  calc Real.sqrt a ≤ Real.sqrt (b * b) := Real.sqrt_le_sqrt h
  _ = b := Real.sqrt_mul_self hb

/-- Lower-bound a square root by squaring the bound. -/
theorem le_sqrt_of_sq (a b : ℝ) (hb : 0 ≤ b) (h : b * b ≤ a) :
    b ≤ Real.sqrt a := by
  calc b = Real.sqrt (b * b) := (Real.sqrt_mul_self hb).symm
  _ ≤ Real.sqrt a := Real.sqrt_le_sqrt h

/-- Scaling a velocity by a nonnegative factor scales the speed. -/
theorem speedOf_scale (p : Body ℝ) (c : ℝ) (hc : 0 ≤ c) :
    speedOf { p with vx := p.vx * c, vy := p.vy * c } = speedOf p * c := by
  show Real.sqrt (p.vx * c * (p.vx * c) + p.vy * c * (p.vy * c))
      = Real.sqrt (p.vx * p.vx + p.vy * p.vy) * c
  rw [show p.vx * c * (p.vx * c) + p.vy * c * (p.vy * c)
      = (c * c) * (p.vx * p.vx + p.vy * p.vy) by ring]
  rw [Real.sqrt_mul (mul_nonneg hc hc), Real.sqrt_mul_self hc]
  ring

/-- `checkPaddleCollision` is a no-op when the bodies are not
overlapping. -/
theorem checkPaddleCollision_far (puck paddle : Body ℝ)
    (h : puck.radius + paddle.radius ≤ distOf puck paddle) :
    checkPaddleCollision puck paddle = (puck, []) := by
  simp only [checkPaddleCollision]
  rw [if_neg]
  intro hc
  exact absurd hc.1 (not_lt.mpr h)

/-- Shape of `checkPaddleCollision` in the approaching branch. -/
theorem cpc_shape (puck paddle : Body ℝ)
    (h0 : 0 < distOf puck paddle)
    (hlt : distOf puck paddle < puck.radius + paddle.radius)
    (hv : relNormalVel puck paddle < 0) :
    checkPaddleCollision puck paddle
        = ({ puck with
              x := puck.x + (puck.x - paddle.x) / distOf puck paddle
                * (puck.radius + paddle.radius - distOf puck paddle),
              y := puck.y + (puck.y - paddle.y) / distOf puck paddle
                * (puck.radius + paddle.radius - distOf puck paddle),
              vx := puck.vx - (1 + 1.1) * relNormalVel puck paddle
                * ((puck.x - paddle.x) / distOf puck paddle)
                + paddle.vx * 0.5,
              vy := puck.vy - (1 + 1.1) * relNormalVel puck paddle
                * ((puck.y - paddle.y) / distOf puck paddle)
                + paddle.vy * 0.5 }, [Ev.hit]) := by
  have hv' : (puck.vx - paddle.vx) * ((puck.x - paddle.x) / distOf puck paddle)
      + (puck.vy - paddle.vy) * ((puck.y - paddle.y) / distOf puck paddle) < 0 := hv
  simp only [checkPaddleCollision, if_pos (And.intro hlt h0), if_pos hv']
  rfl

/-- Shape of `checkPaddleCollision` in the separating branch: only the
positional correction is applied. -/
theorem cpc_shape_sep (puck paddle : Body ℝ)
    (h0 : 0 < distOf puck paddle)
    (hlt : distOf puck paddle < puck.radius + paddle.radius)
    (hv : 0 ≤ relNormalVel puck paddle) :
    checkPaddleCollision puck paddle
        = ({ puck with
              x := puck.x + (puck.x - paddle.x) / distOf puck paddle
                * (puck.radius + paddle.radius - distOf puck paddle),
              y := puck.y + (puck.y - paddle.y) / distOf puck paddle
                * (puck.radius + paddle.radius - distOf puck paddle) }, []) := by
  have hv' : ¬ ((puck.vx - paddle.vx) * ((puck.x - paddle.x) / distOf puck paddle)
      + (puck.vy - paddle.vy) * ((puck.y - paddle.y) / distOf puck paddle) < 0) :=
    not_lt.mpr hv
  simp only [checkPaddleCollision, if_pos (And.intro hlt h0), if_neg hv']

/-- After the positional correction the puck sits exactly at touching
distance from the paddle. -/
theorem corrected_dist (puck paddle q : Body ℝ)
    (h0 : 0 < distOf puck paddle)
    (hlt : distOf puck paddle < puck.radius + paddle.radius)
    (hqx : q.x = puck.x + (puck.x - paddle.x) / distOf puck paddle
        * (puck.radius + paddle.radius - distOf puck paddle))
    (hqy : q.y = puck.y + (puck.y - paddle.y) / distOf puck paddle
        * (puck.radius + paddle.radius - distOf puck paddle)) :
    distOf q paddle = puck.radius + paddle.radius := by
  have hdd : (puck.x - paddle.x) * (puck.x - paddle.x)
      + (puck.y - paddle.y) * (puck.y - paddle.y)
      = distOf puck paddle * distOf puck paddle :=
    (Real.mul_self_sqrt
      (add_nonneg (mul_self_nonneg _) (mul_self_nonneg _))).symm
  have hm0 : (0:ℝ) ≤ puck.radius + paddle.radius :=
    le_of_lt (lt_trans h0 hlt)
  have hne : distOf puck paddle ≠ 0 := ne_of_gt h0
  show Real.sqrt ((q.x - paddle.x) * (q.x - paddle.x)
      + (q.y - paddle.y) * (q.y - paddle.y))
    = puck.radius + paddle.radius
  apply sqrt_eq_of_sq _ _ hm0
  rw [hqx, hqy]
  field_simp
  nlinarith [hdd]

/-- `goalScored` never moves the puck (the reset is deferred). -/
theorem goalScored_puck {α : Type} (s : GameState α) (sc : Side) :
    ((goalScored s sc).1).puck = s.puck := by
  by_cases h : winningScore ≤ scoreOf (bumpScore s.score sc) sc <;>
    simp [goalScored, gameOver, h]

/-- The side-wall phase emits only wall events. -/
theorem sideWalls_evs {α : Type} [LinearOrderedField α]
    (st : GameState α) (p : Body α) :
    ∀ e ∈ (sideWalls st p).2, e = Ev.wall := by
  unfold sideWalls
  split_ifs <;> simp

/-- The wall events carried by a goal outcome of the end-wall phase are
wall events only. -/
theorem endWalls_goal_evs {α : Type} [LinearOrderedField α]
    (st : GameState α) (p : Body α) (sc : Side) (q : Body α)
    (evs : List (Ev α)) (h : endWalls st p = EndResult.goal sc q evs) :
    ∀ e ∈ evs, e = Ev.wall := by
  unfold endWalls bottomWall at h
  split_ifs at h <;> simp_all

/-- `goalScored` emits only goal/win/lose sounds — never a hit and never a
broadcast. -/
theorem goalScored_evs {α : Type} (s : GameState α) (sc : Side) :
    ∀ e ∈ (goalScored s sc).2,
      e = Ev.goalSnd ∨ e = Ev.winSnd ∨ e = Ev.loseSnd := by
  by_cases h : winningScore ≤ scoreOf (bumpScore s.score sc) sc
  · cases sc <;> intro e he <;>
      simp only [goalScored, gameOver, h, if_true] at he <;>
      simp at he <;> rcases he with rfl | rfl <;> simp
  · intro e he
    simp only [goalScored, h, if_false] at he
    simp at he
    simp [he]

/-- Shape of a host tick that detects a goal: the early return leaves the
puck as the end-wall phase produced it and appends only the goal-handling
events. -/
theorem updatePhysics_goal_shape (st : GameState ℝ) (dt : ℝ)
    (scorer : Side) (p4 : Body ℝ) (gevs : List (Ev ℝ))
    (h : endWalls st (prePaddle st dt).1 = EndResult.goal scorer p4 gevs) :
    updatePhysics st dt
      = ((goalScored
            { st with trail := pushTrail st.trail st.puck.x st.puck.y,
                      puck := p4 } scorer).1,
         (prePaddle st dt).2 ++ gevs
           ++ (goalScored
            { st with trail := pushTrail st.trail st.puck.x st.puck.y,
                      puck := p4 } scorer).2) := by
  have h' : endWalls
      { st with trail := pushTrail st.trail st.puck.x st.puck.y }
      ((prePaddle
        { st with trail := pushTrail st.trail st.puck.x st.puck.y } dt).1)
      = EndResult.goal scorer p4 gevs := h
  simp only [updatePhysics, h']
  rfl

/-- Concrete evaluation of the pre-end-wall phase on `sampleR`. -/
theorem sampleR_pre : prePaddle sampleR 1 = (⟨50, 1, 0, 0, 5⟩, []) := by
  have h1 : integrate sampleR.puck 1 = (⟨50, 1, 0, 0, 5⟩ : Body ℝ) := by
    simp [integrate, sampleR]
  have h2 : applyFriction (⟨50, 1, 0, 0, 5⟩ : Body ℝ) 1
      = (⟨50, 1, 0, 0, 5⟩ : Body ℝ) := by
    simp [applyFriction]
  have hc : ¬ (maxPuckSpeed < speedOf (⟨50, 1, 0, 0, 5⟩ : Body ℝ)) := by
    norm_num [speedOf, maxPuckSpeed, Real.sqrt_zero]
  have h3 : clampSpeed (⟨50, 1, 0, 0, 5⟩ : Body ℝ)
      = (⟨50, 1, 0, 0, 5⟩ : Body ℝ) := by
    simp only [clampSpeed, if_neg hc]
  have ha : ¬ ((⟨50, 1, 0, 0, 5⟩ : Body ℝ).x < wallLeftOf sampleR) := by
    norm_num [wallLeftOf, sampleR]
  have hb : ¬ (wallRightOf sampleR < (⟨50, 1, 0, 0, 5⟩ : Body ℝ).x) := by
    norm_num [wallRightOf, sampleR]
  have h4 : sideWalls sampleR (⟨50, 1, 0, 0, 5⟩ : Body ℝ)
      = ((⟨50, 1, 0, 0, 5⟩ : Body ℝ), []) := by
    simp only [sideWalls, if_neg ha, if_neg hb]
  unfold prePaddle
  rw [h1, h2, h3, h4]

/-- The `sampleR` tick detects a goal for the player. -/
theorem sampleR_goal : endWalls sampleR (prePaddle sampleR 1).1
    = EndResult.goal Side.player ⟨50, 1, 0, 0, 5⟩ [] := by
  rw [sampleR_pre]
  have ht : ((⟨50, 1, 0, 0, 5⟩ : Body ℝ)).y < wallTopOf sampleR := by
    norm_num [wallTopOf, sampleR]
  have hin : goalLeftOf sampleR < ((⟨50, 1, 0, 0, 5⟩ : Body ℝ)).x
      ∧ ((⟨50, 1, 0, 0, 5⟩ : Body ℝ)).x < goalRightOf sampleR := by
    norm_num [goalLeftOf, goalRightOf, sampleR]
  simp only [endWalls, if_pos ht, if_pos hin]

/-- Shape of a host tick that takes the normal (no-goal) path, with the
paddle-collision results supplied and no connection (no broadcast). -/
theorem updatePhysics_cont_shape (st : GameState ℝ) (dt : ℝ)
    (p4 q5 q6 : Body ℝ) (e2 e5 e6 : List (Ev ℝ))
    (h : endWalls st (prePaddle st dt).1 = EndResult.cont p4 e2)
    (h5 : checkPaddleCollision p4 st.playerPaddle = (q5, e5))
    (h6 : checkPaddleCollision q5 st.opponentPaddle = (q6, e6))
    (hnc : st.netConnected = false) :
    updatePhysics st dt
      = ({ st with trail := pushTrail st.trail st.puck.x st.puck.y,
                   puck := q6 },
         (prePaddle st dt).2 ++ e2 ++ e5 ++ e6) := by
  have h' : endWalls
      { st with trail := pushTrail st.trail st.puck.x st.puck.y }
      ((prePaddle
        { st with trail := pushTrail st.trail st.puck.x st.puck.y } dt).1)
      = EndResult.cont p4 e2 := h
  have h5' : checkPaddleCollision p4
      ({ st with trail := pushTrail st.trail st.puck.x st.puck.y
       } : GameState ℝ).playerPaddle = (q5, e5) := h5
  have h6' : checkPaddleCollision q5
      ({ st with trail := pushTrail st.trail st.puck.x st.puck.y
       } : GameState ℝ).opponentPaddle = (q6, e6) := h6
  simp only [updatePhysics, h', h5', h6']
  simp only [hnc, Bool.false_eq_true, if_false]
  rfl

/-- Concrete evaluation of a full tick on `sampleW` for any
`dt ∈ [0, 2]`: the puck is clamped to the left wall with velocity
`(2.7 · friction^dt, 0)` and exactly one wall event fires. -/
theorem sampleW_tick (dt : ℝ) (hdt0 : 0 ≤ dt) (_hdt2 : dt ≤ 2) :
    updatePhysics sampleW dt
      = ({ sampleW with trail := [(6, 50)],
                        puck := ⟨7, 50, 27/10 * frictionC ^ dt, 0, 5⟩ },
         [Ev.wall]) := by
  have hf0 : (0:ℝ) < frictionC ^ dt :=
    Real.rpow_pos_of_pos (by norm_num [frictionC]) dt
  have hf1 : frictionC ^ dt ≤ 1 :=
    Real.rpow_le_one (by norm_num [frictionC]) (by norm_num [frictionC])
      hdt0
  have h1 : integrate sampleW.puck dt
      = (⟨6 - 3 * dt, 50, -3, 0, 5⟩ : Body ℝ) := by
    simp [integrate, sampleW, Body.mk.injEq]
    ring
  have h2 : applyFriction (⟨6 - 3 * dt, 50, -3, 0, 5⟩ : Body ℝ) dt
      = (⟨6 - 3 * dt, 50, -3 * frictionC ^ dt, 0, 5⟩ : Body ℝ) := by
    simp [applyFriction]
  have hsp : speedOf (⟨6 - 3 * dt, 50, -3 * frictionC ^ dt, 0, 5⟩ : Body ℝ)
      ≤ maxPuckSpeed := by
    show Real.sqrt ((-3 * frictionC ^ dt) * (-3 * frictionC ^ dt) + 0 * 0)
        ≤ (25:ℝ)
    apply sqrt_le_of_sq _ _ (by norm_num)
    nlinarith [hf0, hf1]
  have h3 : clampSpeed (⟨6 - 3 * dt, 50, -3 * frictionC ^ dt, 0, 5⟩ : Body ℝ)
      = (⟨6 - 3 * dt, 50, -3 * frictionC ^ dt, 0, 5⟩ : Body ℝ) := by
    simp only [clampSpeed, if_neg (not_lt.mpr hsp)]
  have ha : ((⟨6 - 3 * dt, 50, -3 * frictionC ^ dt, 0, 5⟩ : Body ℝ)).x
      < wallLeftOf sampleW := by
    show 6 - 3 * dt < wallLeftOf sampleW
    have : wallLeftOf sampleW = 7 := by norm_num [wallLeftOf, sampleW]
    rw [this]
    linarith
  have h4 : sideWalls sampleW
      (⟨6 - 3 * dt, 50, -3 * frictionC ^ dt, 0, 5⟩ : Body ℝ)
      = ((⟨7, 50, 27/10 * frictionC ^ dt, 0, 5⟩ : Body ℝ), [Ev.wall]) := by
    simp only [sideWalls, if_pos ha, Prod.mk.injEq, Body.mk.injEq]
    refine ⟨⟨?_, trivial, ?_, trivial, trivial⟩, trivial⟩
    · norm_num [wallLeftOf, sampleW]
    · ring
  have hpre : prePaddle sampleW dt
      = ((⟨7, 50, 27/10 * frictionC ^ dt, 0, 5⟩ : Body ℝ), [Ev.wall]) := by
    unfold prePaddle
    rw [h1, h2, h3, h4]
  have hnt : ¬ (((⟨7, 50, 27/10 * frictionC ^ dt, 0, 5⟩ : Body ℝ)).y
      < wallTopOf sampleW) := by
    show ¬ ((50:ℝ) < wallTopOf sampleW)
    norm_num [wallTopOf, sampleW]
  have hnb : ¬ (wallBottomOf sampleW
      < ((⟨7, 50, 27/10 * frictionC ^ dt, 0, 5⟩ : Body ℝ)).y) := by
    show ¬ (wallBottomOf sampleW < (50:ℝ))
    norm_num [wallBottomOf, sampleW]
  have hend : endWalls sampleW (prePaddle sampleW dt).1
      = EndResult.cont (⟨7, 50, 27/10 * frictionC ^ dt, 0, 5⟩ : Body ℝ)
          [] := by
    rw [hpre]
    simp only [endWalls, bottomWall, if_neg hnt, if_neg hnb]
  have hd1 : (13:ℝ) ≤ distOf
      (⟨7, 50, 27/10 * frictionC ^ dt, 0, 5⟩ : Body ℝ)
      sampleW.playerPaddle := by
    show (13:ℝ) ≤ Real.sqrt (((7:ℝ) - 50) * ((7:ℝ) - 50)
      + ((50:ℝ) - 80) * ((50:ℝ) - 80))
    exact le_sqrt_of_sq _ _ (by norm_num) (by norm_num)
  have hd2 : (13:ℝ) ≤ distOf
      (⟨7, 50, 27/10 * frictionC ^ dt, 0, 5⟩ : Body ℝ)
      sampleW.opponentPaddle := by
    show (13:ℝ) ≤ Real.sqrt (((7:ℝ) - 50) * ((7:ℝ) - 50)
      + ((50:ℝ) - 20) * ((50:ℝ) - 20))
    exact le_sqrt_of_sq _ _ (by norm_num) (by norm_num)
  have h5 : checkPaddleCollision
      (⟨7, 50, 27/10 * frictionC ^ dt, 0, 5⟩ : Body ℝ)
      sampleW.playerPaddle
      = ((⟨7, 50, 27/10 * frictionC ^ dt, 0, 5⟩ : Body ℝ), []) := by
    apply checkPaddleCollision_far
    calc ((⟨7, 50, 27/10 * frictionC ^ dt, 0, 5⟩ : Body ℝ)).radius
          + (sampleW.playerPaddle).radius = 13 := by
          norm_num [sampleW]
    _ ≤ _ := hd1
  have h6 : checkPaddleCollision
      (⟨7, 50, 27/10 * frictionC ^ dt, 0, 5⟩ : Body ℝ)
      sampleW.opponentPaddle
      = ((⟨7, 50, 27/10 * frictionC ^ dt, 0, 5⟩ : Body ℝ), []) := by
    apply checkPaddleCollision_far
    calc ((⟨7, 50, 27/10 * frictionC ^ dt, 0, 5⟩ : Body ℝ)).radius
          + (sampleW.opponentPaddle).radius = 13 := by
          norm_num [sampleW]
    _ ≤ _ := hd2
  rw [updatePhysics_cont_shape sampleW dt _ _ _ _ _ _ hend h5 h6 rfl]
  rw [hpre]
  rfl

end AirHockey

namespace AirHockey

/-! ## Claim theorems -/

/-- C1: the mirroring transform applied by the guest to incoming
authoritative state — position `(x, y) ↦ (width - x, height - y)`,
velocity negated, scores swapped — is involutive: applying it twice
returns the original message, for every arena width and height. -/
theorem mirrorStateMsg_involutive {α : Type} [LinearOrderedField α]
    (width height : α) (m : StateMsg α) :
    mirrorStateMsg width height (mirrorStateMsg width height m) = m := by
  cases m with
  | mk puck score =>
      cases puck
      cases score
      simp [mirrorStateMsg]

/-- C4: within a single match, each side's score is non-decreasing under
host goal handling (`goalScored`, unconditionally) and guest state
application (`updateFromHost`, for the in-order message streams the host
produces, whose scores dominate the current ones); on the host, `gameOver`
fires on a goal exactly when the scorer's score first reaches
`winningScore = 11`; on the guest, exactly when a mirrored incoming score
has reached it; and along any goal trace from a fresh match both scores
stay at most 11, the loop is stopped exactly when one of them equals 11,
and scores grow monotonically with the trace. -/
theorem score_monotone_matchover_exact {α : Type} [LinearOrderedField α]
    (st : GameState α) :
    (∀ scorer : Side,
        st.score.player ≤ ((goalScored st scorer).1).score.player
        ∧ st.score.opponent ≤ ((goalScored st scorer).1).score.opponent)
    ∧ (∀ scorer : Side, st.isRunning = true →
        st.score.player < winningScore → st.score.opponent < winningScore →
        (((goalScored st scorer).1).isRunning = false
          ↔ scoreOf st.score scorer + 1 = winningScore))
    ∧ (∀ msg : StateMsg α, st.isHost = false →
        ((st.score.player ≤ msg.score.opponent →
          st.score.opponent ≤ msg.score.player →
          (st.score.player ≤ ((updateFromHost st msg).1).score.player
            ∧ st.score.opponent ≤ ((updateFromHost st msg).1).score.opponent))
         ∧ (st.isRunning = true →
            (((updateFromHost st msg).1).isRunning = false ↔
              winningScore ≤ msg.score.opponent
                ∨ winningScore ≤ msg.score.player))))
    ∧ (st.score = ⟨0, 0⟩ → st.isRunning = true →
        ∀ tr tr' : List Side,
          ((hostRun st tr).score.player ≤ winningScore
            ∧ (hostRun st tr).score.opponent ≤ winningScore)
          ∧ ((hostRun st tr).isRunning = false ↔
              ((hostRun st tr).score.player = winningScore
                ∨ (hostRun st tr).score.opponent = winningScore))
          ∧ ((hostRun st tr).score.player
              ≤ (hostRun st (tr ++ tr')).score.player
            ∧ (hostRun st tr).score.opponent
              ≤ (hostRun st (tr ++ tr')).score.opponent)) := by
  refine ⟨?_, ?_, ?_, ?_⟩
  · intro scorer
    rw [goalScored_score]
    cases scorer <;> simp [bumpScore]
  · intro scorer hr hp ho
    by_cases hw : winningScore ≤ scoreOf (bumpScore st.score scorer) scorer
    · rw [goalScored_isRunning_of_win st scorer hw]
      rw [scoreOf_bump] at hw
      have : scoreOf st.score scorer < winningScore := by
        cases scorer <;> simpa [scoreOf]
      simp only [true_iff]
      omega
    · rw [goalScored_isRunning_of_notwin st scorer hw, hr]
      rw [scoreOf_bump] at hw
      simp only [Bool.true_eq_false, false_iff]
      omega
  · intro msg hg
    constructor
    · intro hp ho
      rw [updateFromHost_score st msg hg]
      exact ⟨hp, ho⟩
    · intro hr
      rw [updateFromHost_isRunning st msg hg, hr]
      by_cases h : winningScore ≤ msg.score.opponent
          ∨ winningScore ≤ msg.score.player <;>
        simp [h]
  · intro hsc hr tr tr'
    have h1 : st.score.player ≤ winningScore
        ∧ st.score.opponent ≤ winningScore := by
      rw [hsc]; exact ⟨Nat.zero_le _, Nat.zero_le _⟩
    have h2 : st.isRunning = false ↔
        (st.score.player = winningScore
          ∨ st.score.opponent = winningScore) := by
      rw [hsc, hr]
      simp [winningScore]
    refine ⟨(hostRun_inv tr st h1 h2).1, (hostRun_inv tr st h1 h2).2, ?_⟩
    rw [hostRun_append]
    exact hostRun_mono tr' (hostRun st tr)

/-- C4 witness: in the sample arena, a match in which the player scores 11
straight goals ends with the loop stopped, and a guest receiving a
host state whose mirrored player score is 11 also stops. -/
theorem score_monotone_matchover_witness :
    (hostRun sampleQ (List.replicate 11 Side.player)).isRunning = false
    ∧ ((updateFromHost { sampleQ with isHost := false }
          (⟨⟨0, 0, 0, 0⟩, ⟨3, 11⟩⟩ : StateMsg ℚ)).1).isRunning = false := by
  constructor
  · exact (((score_monotone_matchover_exact sampleQ).2.2.2 rfl rfl
      (List.replicate 11 Side.player) []).2.1).mpr (by decide)
  · exact ((((score_monotone_matchover_exact
        { sampleQ with isHost := false }).2.2.1
        (⟨⟨0, 0, 0, 0⟩, ⟨3, 11⟩⟩ : StateMsg ℚ) rfl).2) rfl).mpr
      (by decide)

/-- C2: a host physics tick that detects a goal (the end-wall phase
returns a goal outcome) performs no paddle-collision processing — the
resulting puck is exactly the end-wall phase's puck and no hit event is
emitted — and attempts no `gameState` broadcast; `gameOver` stops the
loop, a stopped loop does nothing (so no further broadcasts occur), and a
pending post-goal reset firing after the match ended also does nothing. -/
theorem goal_tick_short_circuit (st : GameState ℝ) (dt : ℝ) :
    (∀ (scorer : Side) (p4 : Body ℝ) (gevs : List (Ev ℝ)),
        endWalls st (prePaddle st dt).1 = EndResult.goal scorer p4 gevs →
        (updatePhysics st dt).1.puck = p4
        ∧ Ev.hit ∉ (updatePhysics st dt).2
        ∧ (∀ (pm : PuckMsg ℝ) (sc : Score),
            Ev.broadcastState pm sc ∉ (updatePhysics st dt).2))
    ∧ (∀ w, ((gameOver st w).1).isRunning = false)
    ∧ (st.isRunning = false → gameLoopStep st dt = (st, []))
    ∧ (∀ vx vy : ℝ, st.isRunning = false →
        resetTimeoutFire st vx vy
          = ({ st with pendingReset := none }, [])) := by
  refine ⟨?_, fun w => rfl, ?_, ?_⟩
  · intro scorer p4 gevs h
    rw [updatePhysics_goal_shape st dt scorer p4 gevs h]
    refine ⟨goalScored_puck _ scorer, ?_, ?_⟩
    · intro hmem
      rcases List.mem_append.mp hmem with h1 | h2
      · rcases List.mem_append.mp h1 with ha | hb
        · have hw := sideWalls_evs st
            (clampSpeed (applyFriction (integrate st.puck dt) dt)) _ ha
          simp at hw
        · have hw := endWalls_goal_evs st (prePaddle st dt).1 scorer p4
            gevs h _ hb
          simp at hw
      · have hw := goalScored_evs _ scorer _ h2
        rcases hw with h3 | h3 | h3 <;> simp at h3
    · intro pm sc hmem
      rcases List.mem_append.mp hmem with h1 | h2
      · rcases List.mem_append.mp h1 with ha | hb
        · have hw := sideWalls_evs st
            (clampSpeed (applyFriction (integrate st.puck dt) dt)) _ ha
          simp at hw
        · have hw := endWalls_goal_evs st (prePaddle st dt).1 scorer p4
            gevs h _ hb
          simp at hw
      · have hw := goalScored_evs _ scorer _ h2
        rcases hw with h3 | h3 | h3 <;> simp at h3
  · intro hr
    simp [gameLoopStep, hr]
  · intro vx vy hr
    simp [resetTimeoutFire, hr]

/-- C2 witness: in `sampleR` the tick at `dt = 1` scores for the player;
the tick leaves the puck untouched by paddles, emits neither a hit nor any
broadcast, and the loop, once stopped, does nothing. -/
theorem goal_tick_short_circuit_witness :
    endWalls sampleR (prePaddle sampleR 1).1
        = EndResult.goal Side.player ⟨50, 1, 0, 0, 5⟩ []
    ∧ (updatePhysics sampleR 1).1.puck = ⟨50, 1, 0, 0, 5⟩
    ∧ Ev.hit ∉ (updatePhysics sampleR 1).2
    ∧ Ev.broadcastState ⟨0, 0, 0, 0⟩ ⟨0, 0⟩ ∉ (updatePhysics sampleR 1).2
    ∧ gameLoopStep { sampleR with isRunning := false } 1
        = ({ sampleR with isRunning := false }, []) := by
  have happ := (goal_tick_short_circuit sampleR 1).1 Side.player
    ⟨50, 1, 0, 0, 5⟩ [] sampleR_goal
  exact ⟨sampleR_goal, happ.1, happ.2.1, happ.2.2 ⟨0, 0, 0, 0⟩ ⟨0, 0⟩,
    (goal_tick_short_circuit { sampleR with isRunning := false } 1).2.2.1
      rfl⟩

/-- C5 counterexample: in the spec's scenario (puck at `(wallLeft - 1, mid)`
with velocity `(-3, 0)`), after one tick at `dt = 1` the puck is clamped
to `wallLeft` but its horizontal velocity is
`2.7 · 0.995 = 2.6865 = 5373/2000`, not exactly `2.7`: friction is applied
before the bounce. -/
theorem wall_bounce_exact_counterexample :
    (updatePhysics sampleW 1).1.puck.x = wallLeftOf sampleW
    ∧ (updatePhysics sampleW 1).1.puck.vx = 5373/2000
    ∧ (updatePhysics sampleW 1).1.puck.vx ≠ 27/10 := by
  rw [sampleW_tick 1 (by norm_num) (by norm_num)]
  refine ⟨?_, ?_, ?_⟩
  · show (7:ℝ) = wallLeftOf sampleW
    norm_num [wallLeftOf, sampleW]
  · show (27/10 : ℝ) * frictionC ^ (1:ℝ) = 5373/2000
    rw [Real.rpow_one]
    norm_num [frictionC]
  · show (27/10 : ℝ) * frictionC ^ (1:ℝ) ≠ 27/10
    rw [Real.rpow_one]
    norm_num [frictionC]

/-- C5 amended: in the scenario, for every `dt ∈ [0, 2]`, one physics tick
clamps the puck to `x = wallLeft` and reverses and scales the
post-friction horizontal velocity by `0.9` — giving exactly
`(2.7 · 0.995^dt, 0)`, which equals `(2.7, 0)` only at `dt = 0` — and a
wall event fires. -/
theorem wall_bounce_scenario (dt : ℝ) (hdt0 : 0 ≤ dt) (hdt2 : dt ≤ 2) :
    (updatePhysics sampleW dt).1.puck.x = wallLeftOf sampleW
    ∧ (updatePhysics sampleW dt).1.puck.vx
        = -(-3 * frictionC ^ dt) * (9/10)
    ∧ (updatePhysics sampleW dt).1.puck.vy = 0
    ∧ Ev.wall ∈ (updatePhysics sampleW dt).2 := by
  rw [sampleW_tick dt hdt0 hdt2]
  refine ⟨?_, ?_, rfl, by simp⟩
  · show (7:ℝ) = wallLeftOf sampleW
    norm_num [wallLeftOf, sampleW]
  · show (27/10 : ℝ) * frictionC ^ dt = -(-3 * frictionC ^ dt) * (9/10)
    ring

/-- C5 witness: the amended scenario at `dt = 1`. -/
theorem wall_bounce_scenario_witness :
    ((0:ℝ) ≤ 1 ∧ (1:ℝ) ≤ 2)
    ∧ (updatePhysics sampleW 1).1.puck.x = wallLeftOf sampleW
    ∧ Ev.wall ∈ (updatePhysics sampleW 1).2 :=
  ⟨⟨by norm_num, by norm_num⟩,
   (wall_bounce_scenario 1 (by norm_num) (by norm_num)).1,
   (wall_bounce_scenario 1 (by norm_num) (by norm_num)).2.2.2⟩

/-- C9: in puck-paddle collision resolution, whenever the center distance
is strictly between zero and the sum of the radii the puck is pushed out
along the unit collision normal by exactly the overlap (landing exactly at
touching distance); the velocity impulse
`v -= (1 + 1.1) * relNormalVel * n` plus half the paddle velocity is
applied only when the bodies approach along the normal
(`relNormalVel < 0`), and with a non-negative relative normal velocity the
puck's velocity is unchanged. -/
theorem paddle_collision_resolution (puck paddle : Body ℝ)
    (h0 : 0 < distOf puck paddle)
    (hlt : distOf puck paddle < puck.radius + paddle.radius) :
    ((checkPaddleCollision puck paddle).1.x
        = puck.x + (puck.x - paddle.x) / distOf puck paddle
            * (puck.radius + paddle.radius - distOf puck paddle)
      ∧ (checkPaddleCollision puck paddle).1.y
        = puck.y + (puck.y - paddle.y) / distOf puck paddle
            * (puck.radius + paddle.radius - distOf puck paddle))
    ∧ distOf (checkPaddleCollision puck paddle).1 paddle
        = puck.radius + paddle.radius
    ∧ (0 ≤ relNormalVel puck paddle →
        (checkPaddleCollision puck paddle).1.vx = puck.vx
        ∧ (checkPaddleCollision puck paddle).1.vy = puck.vy
        ∧ (checkPaddleCollision puck paddle).2 = [])
    ∧ (relNormalVel puck paddle < 0 →
        (checkPaddleCollision puck paddle).1.vx
          = puck.vx - (1 + 1.1) * relNormalVel puck paddle
              * ((puck.x - paddle.x) / distOf puck paddle)
              + paddle.vx * 0.5
        ∧ (checkPaddleCollision puck paddle).1.vy
          = puck.vy - (1 + 1.1) * relNormalVel puck paddle
              * ((puck.y - paddle.y) / distOf puck paddle)
              + paddle.vy * 0.5
        ∧ (checkPaddleCollision puck paddle).2 = [Ev.hit]) := by
  by_cases hv : relNormalVel puck paddle < 0
  · rw [cpc_shape puck paddle h0 hlt hv]
    refine ⟨⟨rfl, rfl⟩, ?_, ?_, ?_⟩
    · exact corrected_dist puck paddle _ h0 hlt rfl rfl
    · intro hge; exact absurd hv (not_lt.mpr hge)
    · intro _; exact ⟨rfl, rfl, rfl⟩
  · have hge : 0 ≤ relNormalVel puck paddle := not_lt.mp hv
    rw [cpc_shape_sep puck paddle h0 hlt hge]
    refine ⟨⟨rfl, rfl⟩, ?_, ?_, ?_⟩
    · exact corrected_dist puck paddle _ h0 hlt rfl rfl
    · intro _; exact ⟨rfl, rfl, rfl⟩
    · intro hlt2; exact absurd hlt2 hv

/-- C9 witness: puck at `(3, 4)` (radius 2, velocity `(-1, -1)`) against a
paddle at the origin (radius 4, at rest): distance 5 lies strictly between
0 and 6, the bodies approach, the puck is pushed out to touching distance
6 and a hit event fires. -/
theorem paddle_collision_resolution_witness :
    ((0:ℝ) < distOf ⟨3, 4, -1, -1, 2⟩ ⟨0, 0, 0, 0, 4⟩
      ∧ distOf (⟨3, 4, -1, -1, 2⟩ : Body ℝ) ⟨0, 0, 0, 0, 4⟩
          < (⟨3, 4, -1, -1, 2⟩ : Body ℝ).radius
              + (⟨0, 0, 0, 0, 4⟩ : Body ℝ).radius
      ∧ relNormalVel (⟨3, 4, -1, -1, 2⟩ : Body ℝ) ⟨0, 0, 0, 0, 4⟩ < 0)
    ∧ distOf (checkPaddleCollision (⟨3, 4, -1, -1, 2⟩ : Body ℝ)
          ⟨0, 0, 0, 0, 4⟩).1 ⟨0, 0, 0, 0, 4⟩
        = (⟨3, 4, -1, -1, 2⟩ : Body ℝ).radius
            + (⟨0, 0, 0, 0, 4⟩ : Body ℝ).radius
    ∧ (checkPaddleCollision (⟨3, 4, -1, -1, 2⟩ : Body ℝ)
          ⟨0, 0, 0, 0, 4⟩).2 = [Ev.hit] := by
  have hd : distOf (⟨3, 4, -1, -1, 2⟩ : Body ℝ) ⟨0, 0, 0, 0, 4⟩ = 5 := by
    show Real.sqrt (((3:ℝ) - 0) * ((3:ℝ) - 0) + ((4:ℝ) - 0) * ((4:ℝ) - 0)) = 5
    exact sqrt_eq_of_sq _ 5 (by norm_num) (by norm_num)
  have h0 : (0:ℝ) < distOf ⟨3, 4, -1, -1, 2⟩ ⟨0, 0, 0, 0, 4⟩ := by
    rw [hd]; norm_num
  have hlt : distOf (⟨3, 4, -1, -1, 2⟩ : Body ℝ) ⟨0, 0, 0, 0, 4⟩
      < (⟨3, 4, -1, -1, 2⟩ : Body ℝ).radius
          + (⟨0, 0, 0, 0, 4⟩ : Body ℝ).radius := by
    rw [hd]; norm_num
  have hv : relNormalVel (⟨3, 4, -1, -1, 2⟩ : Body ℝ) ⟨0, 0, 0, 0, 4⟩ < 0 := by
    show ((-1:ℝ) - 0) * (((3:ℝ) - 0) / distOf ⟨3, 4, -1, -1, 2⟩ ⟨0, 0, 0, 0, 4⟩)
        + ((-1:ℝ) - 0) * (((4:ℝ) - 0) / distOf ⟨3, 4, -1, -1, 2⟩ ⟨0, 0, 0, 0, 4⟩) < 0
    rw [hd]; norm_num
  exact ⟨⟨h0, hlt, hv⟩,
    (paddle_collision_resolution ⟨3, 4, -1, -1, 2⟩ ⟨0, 0, 0, 0, 4⟩ h0 hlt).2.1,
    ((paddle_collision_resolution ⟨3, 4, -1, -1, 2⟩ ⟨0, 0, 0, 0, 4⟩ h0 hlt).2.2.2 hv).2.2⟩

/-- C10: a received `paddle` message with coordinates `(x, y)` sets the
opponent paddle position to exactly `(width - x, height - y)` with no
clamping; consequently a message whose `x` lies left of the arena places
the paddle strictly beyond the right playable bound
`width - wallThickness - paddleRadius`. -/
theorem paddle_message_unclamped (st : GameState ℚ) (x y : ℚ) :
    ((handleGameMsg st (Msg.paddle x y)).1.opponentPaddle.x = st.width - x
     ∧ (handleGameMsg st (Msg.paddle x y)).1.opponentPaddle.y
         = st.height - y)
    ∧ (x < 0 → 0 < st.wallThickness + st.opponentPaddle.radius →
        st.width - st.wallThickness - st.opponentPaddle.radius
          < (handleGameMsg st (Msg.paddle x y)).1.opponentPaddle.x) := by
  constructor
  · exact ⟨rfl, rfl⟩
  · intro hx hw
    show st.width - st.wallThickness - st.opponentPaddle.radius
        < st.width - x
    linarith

/-- C10 witness: the paddle message `(x, y) = (-5, 10)` received in the
sample arena places the opponent paddle at `x = 105`, beyond the right
playable bound `100 - 2 - 8 = 90`. -/
theorem paddle_message_unclamped_witness :
    ((-5 : ℚ) < 0
      ∧ (0 : ℚ) < sampleQ.wallThickness + sampleQ.opponentPaddle.radius)
    ∧ sampleQ.width - sampleQ.wallThickness - sampleQ.opponentPaddle.radius
        < (handleGameMsg sampleQ (Msg.paddle (-5) 10)).1.opponentPaddle.x :=
  ⟨⟨by norm_num, by norm_num [sampleQ]⟩,
   (paddle_message_unclamped sampleQ (-5) 10).2 (by norm_num)
     (by norm_num [sampleQ])⟩

/-- C3: on an end-wall crossing, a goal is detected if and only if the
puck's horizontal coordinate lies strictly inside the open interval
`(goalLeft, goalRight)`; outside that interval — including exactly at
`goalLeft` or `goalRight` — the puck bounces like off a normal wall
(position clamped to the wall, perpendicular velocity reversed and scaled
by `0.9`, a wall event played). -/
theorem goal_iff_strictly_inside {α : Type} [LinearOrderedField α]
    (st : GameState α) (p : Body α) :
    (p.y < wallTopOf st →
      ((∃ q evs, endWalls st p = EndResult.goal Side.player q evs)
        ↔ (goalLeftOf st < p.x ∧ p.x < goalRightOf st)))
    ∧ (wallTopOf st ≤ p.y → wallBottomOf st < p.y →
      ((∃ q evs, endWalls st p = EndResult.goal Side.opponent q evs)
        ↔ (goalLeftOf st < p.x ∧ p.x < goalRightOf st)))
    ∧ (p.y < wallTopOf st → wallTopOf st ≤ wallBottomOf st →
        ¬(goalLeftOf st < p.x ∧ p.x < goalRightOf st) →
        endWalls st p
          = EndResult.cont
              { p with y := wallTopOf st, vy := -p.vy * (9/10) } [Ev.wall])
    ∧ (wallTopOf st ≤ p.y → wallBottomOf st < p.y →
        ¬(goalLeftOf st < p.x ∧ p.x < goalRightOf st) →
        endWalls st p
          = EndResult.cont
              { p with y := wallBottomOf st, vy := -p.vy * (9/10) }
              [Ev.wall]) := by
  refine ⟨?_, ?_, ?_, ?_⟩
  · intro htop
    by_cases hin : goalLeftOf st < p.x ∧ p.x < goalRightOf st
    · simp [endWalls, htop, hin]
    · simp only [endWalls, htop, if_true, hin, if_false, bottomWall]
      constructor
      · intro hex
        rcases hex with ⟨q, evs, hq⟩
        split at hq <;> simp_all
      · intro h; exact h.elim
  · intro htop hbot
    have hnt : ¬ p.y < wallTopOf st := not_lt.mpr htop
    by_cases hin : goalLeftOf st < p.x ∧ p.x < goalRightOf st
    · simp [endWalls, hnt, bottomWall, hbot, hin]
    · simp only [endWalls, hnt, if_false, bottomWall, hbot, if_true,
        hin]
      constructor
      · intro hex
        rcases hex with ⟨q, evs, hq⟩
        simp_all
      · intro h; exact h.elim
  · intro htop hsane hin
    have hnb : ¬ wallBottomOf st < wallTopOf st := not_lt.mpr hsane
    simp [endWalls, htop, hin, bottomWall, hnb]
  · intro htop hbot hin
    have hnt : ¬ p.y < wallTopOf st := not_lt.mpr htop
    simp [endWalls, hnt, bottomWall, hbot, hin]

/-- C3 witness: in the sample arena (goal mouth `(30, 70)`, top wall at
`y = 7`), a puck crossing the top wall exactly at `x = goalLeft = 30`
bounces instead of scoring: position clamped to the wall, `vy` reversed
and scaled by `0.9`, wall event played. -/
theorem goal_iff_strictly_inside_witness :
    ((1 : ℚ) < wallTopOf sampleQ
      ∧ wallTopOf sampleQ ≤ wallBottomOf sampleQ
      ∧ ¬(goalLeftOf sampleQ < (30 : ℚ) ∧ (30 : ℚ) < goalRightOf sampleQ))
    ∧ endWalls sampleQ ⟨30, 1, 0, -4, 5⟩
        = EndResult.cont ⟨30, wallTopOf sampleQ, 0, -(-4 : ℚ) * (9/10), 5⟩
            [Ev.wall] :=
  ⟨⟨by norm_num [sampleQ, wallTopOf],
    by norm_num [sampleQ, wallTopOf, wallBottomOf],
    by norm_num [sampleQ, goalLeftOf]⟩,
   (goal_iff_strictly_inside sampleQ ⟨30, 1, 0, -4, 5⟩).2.2.1
     (by norm_num [sampleQ, wallTopOf])
     (by norm_num [sampleQ, wallTopOf, wallBottomOf])
     (by norm_num [sampleQ, goalLeftOf])⟩

/-- C6: for every `dt ∈ [0, 2]` the friction step never increases the
puck's speed, and whenever the speed exceeds `maxPuckSpeed = 25` the clamp
step rescales the velocity to speed exactly `maxPuckSpeed`, preserving its
direction (the new velocity is a positive scalar multiple of the old). -/
theorem friction_le_clamp_exact (p : Body ℝ) (dt : ℝ) :
    (0 ≤ dt → dt ≤ 2 → speedOf (applyFriction p dt) ≤ speedOf p)
    ∧ (maxPuckSpeed < speedOf p →
        speedOf (clampSpeed p) = maxPuckSpeed
        ∧ ∃ c : ℝ, 0 < c ∧ (clampSpeed p).vx = c * p.vx
            ∧ (clampSpeed p).vy = c * p.vy) := by
  constructor
  · intro hdt0 _
    have hf0 : (0:ℝ) ≤ frictionC ^ dt :=
      Real.rpow_nonneg (by norm_num [frictionC]) dt
    have hf1 : frictionC ^ dt ≤ 1 :=
      Real.rpow_le_one (by norm_num [frictionC]) (by norm_num [frictionC])
        hdt0
    have hsc : speedOf (applyFriction p dt)
        = speedOf p * (frictionC ^ dt) :=
      speedOf_scale p (frictionC ^ dt) hf0
    rw [hsc]
    exact mul_le_of_le_one_right (Real.sqrt_nonneg _) hf1
  · intro h
    have hS0 : (0:ℝ) < speedOf p := lt_trans (by norm_num [maxPuckSpeed]) h
    have hcl : clampSpeed p
        = { p with vx := p.vx * (maxPuckSpeed / speedOf p),
                   vy := p.vy * (maxPuckSpeed / speedOf p) } := by
      simp only [clampSpeed, if_pos h, Body.mk.injEq]
      exact ⟨trivial, trivial, by ring, by ring, trivial⟩
    have hc0 : (0:ℝ) < maxPuckSpeed / speedOf p :=
      div_pos (by norm_num [maxPuckSpeed]) hS0
    refine ⟨?_, maxPuckSpeed / speedOf p, hc0, ?_, ?_⟩
    · rw [hcl, speedOf_scale p _ (le_of_lt hc0)]
      field_simp
    · rw [hcl]
      exact mul_comm _ _
    · rw [hcl]
      exact mul_comm _ _

/-- C6 witness: a puck with velocity `(0, 30)` (speed 30, above the cap)
keeps speed ≤ 30 under friction at `dt = 1` and is clamped to speed
exactly 25. -/
theorem friction_le_clamp_exact_witness :
    ((0:ℝ) ≤ 1 ∧ (1:ℝ) ≤ 2
      ∧ maxPuckSpeed < speedOf (⟨0, 0, 0, 30, 5⟩ : Body ℝ))
    ∧ speedOf (applyFriction (⟨0, 0, 0, 30, 5⟩ : Body ℝ) 1)
        ≤ speedOf (⟨0, 0, 0, 30, 5⟩ : Body ℝ)
    ∧ speedOf (clampSpeed (⟨0, 0, 0, 30, 5⟩ : Body ℝ)) = maxPuckSpeed := by
  have hsp : speedOf (⟨0, 0, 0, 30, 5⟩ : Body ℝ) = 30 := by
    show Real.sqrt ((0:ℝ) * 0 + 30 * 30) = 30
    exact sqrt_eq_of_sq _ 30 (by norm_num) (by norm_num)
  have hlt : maxPuckSpeed < speedOf (⟨0, 0, 0, 30, 5⟩ : Body ℝ) := by
    rw [hsp]; norm_num [maxPuckSpeed]
  exact ⟨⟨by norm_num, by norm_num, hlt⟩,
    (friction_le_clamp_exact ⟨0, 0, 0, 30, 5⟩ 1).1 (by norm_num)
      (by norm_num),
    ((friction_le_clamp_exact ⟨0, 0, 0, 30, 5⟩ 1).2 hlt).1⟩

/-- C8: `gameState` broadcasts are throttled: the emitted messages are a
subsequence of the attempts (too-early attempts are dropped, not queued),
consecutive emissions — anchored at the stored `lastStateSend` — are at
least `stateSendInterval = 33` ms apart, and any sequence of attempts
confined to a 200ms window yields at most `⌈200/33⌉ = 7` emissions. -/
theorem sendGameState_throttle (last lo : ℤ) (ts : List ℤ)
    (hwin : ∀ t ∈ ts, lo ≤ t ∧ t ≤ lo + 200) :
    (sendTimes last ts).Sublist ts
    ∧ List.Chain (fun a b => a + stateSendInterval ≤ b) last
        (sendTimes last ts)
    ∧ (sendTimes last ts).length ≤ 7 := by
  refine ⟨sendTimes_sublist ts last, sendTimes_chain ts last, ?_⟩
  have hsub := sendTimes_sublist ts last
  have hch := sendTimes_chain ts last
  cases hst : sendTimes last ts with
  | nil => simp
  | cons t1 rest =>
      rw [hst] at hsub hch
      have hch1 : List.Chain (fun a b => a + stateSendInterval ≤ b) t1 rest := by
        cases hch with
        | cons _ h => exact h
      have hmem : ∀ y ∈ t1 :: rest, lo ≤ y ∧ y ≤ lo + 200 :=
        fun y hy => hwin y (hsub.subset hy)
      by_cases hne : rest = []
      · subst hne; simp
      · have hbd := chain_anchored_bound stateSendInterval (lo + 200) rest t1
          hch1 (fun y hy => (hmem y (List.mem_cons_of_mem t1 hy)).2) hne
        have hlo : lo ≤ t1 := (hmem t1 (List.mem_cons_self t1 rest)).1
        have : stateSendInterval * (rest.length : ℤ) ≤ 200 := by omega
        have hlen : (rest.length : ℤ) ≤ 6 := by
          simp only [stateSendInterval] at this
          omega
        simp only [List.length_cons]
        omega

/-- C8 witness: attempts every 5ms over a 200ms window (at times
`0, 5, …, 195`), with the stored `lastStateSend` far in the past, emit at
most 7 messages. -/
theorem sendGameState_throttle_witness :
    (∀ t ∈ (List.range 40).map (fun i => 5 * (i : ℤ)), 0 ≤ t ∧ t ≤ 0 + 200)
    ∧ (sendTimes (-100000)
        ((List.range 40).map (fun i => 5 * (i : ℤ)))).length ≤ 7 :=
  ⟨by decide,
   (sendGameState_throttle (-100000) 0
      ((List.range 40).map (fun i => 5 * (i : ℤ))) (by decide)).2.2⟩

/-- C7 counterexample: run `createGame` against the event sequence in
which the host's own peer registration opens and then the 60-second timer
fires, with no remote peer ever connecting.  The promise is nonetheless
resolved with the room code (and not rejected with a timeout), refuting
both halves of the claim. -/
theorem createGame_counterexample :
    (createGameRun 1234 [] [HostEv.peerOpen, HostEv.timeout60]).promise
        = some (Sum.inl 1234)
    ∧ (createGameRun 1234 [] [HostEv.peerOpen, HostEv.timeout60]).isConnected
        = false := by
  exact ⟨rfl, rfl⟩

/-- C7 amended: `createGame` resolves with the room code as soon as the
host's own peer registration opens — irrevocably, whatever happens later
and in particular before any remote peer connects; the 60-second timer,
when it fires with no remote connection established and the promise not
yet settled, rejects with a timeout error; and when a remote connection
has been established the timer leaves the promise untouched. -/
theorem createGame_resolves_on_local_open :
    (∀ (code : ℕ) (codes : List ℕ) (rest : List HostEv),
        (createGameRun code codes (HostEv.peerOpen :: rest)).promise
          = some (Sum.inl code))
    ∧ (∀ (code : ℕ) (codes : List ℕ),
        (createGameRun code codes [HostEv.timeout60]).promise
          = some (Sum.inr NetErr.timeout))
    ∧ (∀ s : HostCreate,
        (createGameStep { s with isConnected := true } HostEv.timeout60).promise
          = s.promise) := by
  refine ⟨?_, ?_, ?_⟩
  · intro code codes rest
    exact promise_settled_stays _ rest _ rfl
  · intro code codes
    rfl
  · intro s
    rfl

end AirHockey
